import Mathlib

/-!
Verification development for the quiz session engine of this repository
(`app/services/quiz.py`, `app/handlers/quiz.py`, `app/models/quiz.py`).

The Python source is shallowly embedded: pure helpers become Lean functions
over `String` / `List Char`; the database, the process-wide finalization
guard and the timer table become explicit state records; `asyncio` side
effects (messages, timer cancellation, sleeps) are recorded in an ordered
effect list; exceptions of fallible collaborator calls are driven by an
explicit failure-mode oracle, mirroring the `try/except/finally` structure
of the source.

Unicode caveat: the source calls `str.lower()`, `unicodedata.normalize("NFKD", ·)`
and the regex class `\w`.  These are modelled on their ASCII fragment
(`Char.toLower`, NFKD as the identity, `\w` as alphanumeric-or-underscore),
which is exact for ASCII text; all theorems about the matcher are stated
conditionally on the *output* of normalization, so they do not depend on
the Unicode tables.
-/

set_option autoImplicit false

namespace QuizService

/-- Python whitespace test used by `str.split()` / `str.strip()` / `\s`. -/
def pyIsSpace (c : Char) : Bool := c.isWhitespace

/-- The regex character class `\w` (ASCII fragment): letters, digits, underscore. -/
def isWordChar (c : Char) : Bool := c.isAlphanum || c == '_'

/-- Embedding of `re.sub(r"[^\w\s]", " ", text)`: every punctuation character becomes a space. -/
def replacePunct (cs : List Char) : List Char :=
  cs.map (fun c => if isWordChar c || pyIsSpace c then c else ' ')

/-- Embedding of `re.sub(r"\s+", " ", text)`: collapse each whitespace run to a single space.
The flag records whether the previous character belonged to a run. -/
def collapseWs : Bool → List Char → List Char
  | _, [] => []
  | prevWs, c :: cs =>
    if pyIsSpace c then
      if prevWs then collapseWs true cs else ' ' :: collapseWs true cs
    else c :: collapseWs false cs

/-- Python `str.strip()` on a character list. -/
def pyStrip (cs : List Char) : List Char :=
  ((cs.dropWhile pyIsSpace).reverse.dropWhile pyIsSpace).reverse

/-- Model of `_normalize_text` from `app/services/quiz.py`: lowercase, NFKD (identity on
the modelled ASCII fragment), punctuation to spaces, collapse whitespace, strip. -/
def _normalize_text (text : String) : String :=
  String.mk (pyStrip (collapseWs false (replacePunct (text.data.map Char.toLower))))

/-- Python `str.split()` with no separator: split on whitespace runs and drop
empty pieces.  `cur` accumulates the characters of the current word, reversed. -/
def pySplitGo : List Char → List Char → List (List Char)
  | cur, [] => if cur.isEmpty then [] else [cur.reverse]
  | cur, c :: cs =>
    if pyIsSpace c then
      if cur.isEmpty then pySplitGo [] cs else cur.reverse :: pySplitGo [] cs
    else pySplitGo (c :: cur) cs

/-- Python `str.split()` with no separator. -/
def pySplit (cs : List Char) : List (List Char) := pySplitGo [] cs

/-- Model of `_normalize_words` from `app/services/quiz.py`: the list-comprehension
filter `if w` of the source is kept (it is vacuous after `split()`). -/
def _normalize_words (text : String) : List String :=
  ((pySplit (_normalize_text text).data).map String.mk).filter (fun w => !w.isEmpty)

/-- Inner loop of `_levenshtein`: build the next DP row while walking `b`.
`cur` is the entry appended last to the row under construction (`curr[j]` in
the source); `pj :: pj1 :: _` are `prev[j]` and `prev[j + 1]`. -/
def levRowAux (ca : Char) : List Char → List Nat → Nat → List Nat
  | cb :: bs, pj :: pj1 :: ps, cur =>
    let nxt := min (pj + (if ca == cb then 0 else 1)) (min (cur + 1) (pj1 + 1))
    nxt :: levRowAux ca bs (pj1 :: ps) nxt
  | _, _, _ => []

/-- Outer loop of `_levenshtein`: fold each character of `a` over the DP row;
the new row starts with `i + 1` (`curr = [i + 1]` in the source). -/
def levLoop (b : List Char) : List Char → Nat → List Nat → List Nat
  | [], _, prev => prev
  | ca :: rest, i, prev => levLoop b rest (i + 1) ((i + 1) :: levRowAux ca b prev (i + 1))

/-- Model of `_levenshtein` from `app/services/quiz.py` (iterative row-by-row DP with
the three early returns of the source; `prev[-1]` is the last row entry). -/
def _levenshtein (a b : String) : Nat :=
  if a == b then 0
  else if a.isEmpty then b.length
  else if b.isEmpty then a.length
  else (levLoop b.data a.data 0 (List.range (b.length + 1))).getLastD 0

/-- The textbook Levenshtein recurrence with unit insert/delete/substitute
costs, on prefixes: `levSpec a b i j` is the edit distance between `a.take i`
and `b.take j`.  Used as the mathematical reference for `_levenshtein`. -/
def levSpec (a b : List Char) : Nat → Nat → Nat
  | 0, j => j
  | i + 1, 0 => i + 1
  | i + 1, j + 1 =>
    min (levSpec a b i j + (if a.getD i ' ' == b.getD j ' ' then 0 else 1))
      (min (levSpec a b (i + 1) j + 1) (levSpec a b i (j + 1) + 1))
  termination_by i j => (i, j)

/-- Model of `_Decision` from `app/services/quiz.py`.  `ratio` is a float used only as
metadata in the source (never compared); it is modelled as an exact rational. -/
structure _Decision where
  is_correct : Bool
  is_close : Bool
  ratio : ℚ
  deriving Repr, DecidableEq

/-- Model of `_correct_decision()` from `app/services/quiz.py`. -/
def _correct_decision : _Decision := { is_correct := true, is_close := false, ratio := 1 }

/-- Model of `_close_decision()` from `app/services/quiz.py`. -/
def _close_decision : _Decision := { is_correct := true, is_close := true, ratio := 0.9 }

/-- Model of `_wrong_decision()` from `app/services/quiz.py`. -/
def _wrong_decision : _Decision := { is_correct := false, is_close := false, ratio := 0 }

/-- Model of `local_quiz_answer_decision` from `app/services/quiz.py`.  The three-way
branch on `correct_words` (`if not correct_words` / `len(...) == 1` / else)
becomes a match on the list shape; `answer_words[0]` after the
`len(answer_words) != 1` guard becomes the one-element pattern.  Python's
`set(...)` becomes `List.toFinset`, and the float ratio comparison becomes an
exact rational comparison (`0.8` is exact in `ℚ`). -/
def local_quiz_answer_decision (correct_answer user_answer : String) : _Decision :=
  let correct_words := _normalize_words correct_answer
  let answer_words := _normalize_words user_answer
  match correct_words with
  | [] => _wrong_decision
  | [correct_word] =>
    match answer_words with
    | [answer_word] =>
      if correct_word = answer_word then _correct_decision
      else if _levenshtein correct_word answer_word ≤ 1 then _close_decision
      else _wrong_decision
    | _ => _wrong_decision
  | _ :: _ :: _ =>
    let correct_set := correct_words.toFinset
    let answer_set := answer_words.toFinset
    if answer_set = ∅ then _wrong_decision
    else
      let overlap := (correct_set ∩ answer_set).card
      let ratio : ℚ := (overlap : ℚ) / (correct_set.card : ℚ)
      if (1 : ℚ) ≤ ratio then _correct_decision
      else if (0.8 : ℚ) ≤ ratio then _close_decision
      else _wrong_decision

/-- Model of `build_answer_hint` from `app/services/quiz.py`; note the one-word branch
reports `len(answer.strip())`, the length of the *stripped raw answer*. -/
def build_answer_hint (answer : String) : String :=
  let words := _normalize_words answer
  let count := words.length
  if count = 0 then "Подсказка недоступна."
  else if count = 1 then
    "Ответ: 1 слово (" ++ toString (pyStrip answer.data).length ++ " букв)."
  else if count = 2 then "Ответ: 2 слова."
  else "Ответ: " ++ toString count ++ " слова(-ов)."

/-- Entries `j, j + 1, …, j + k - 1` of the `i`-th DP row of `levSpec`. -/
def rowSpecFrom (a b : List Char) (i : Nat) : Nat → Nat → List Nat
  | _, 0 => []
  | j, k + 1 => levSpec a b i j :: rowSpecFrom a b i (j + 1) k

theorem getD_of_drop_cons {l : List Char} {j : Nat} {c : Char} {cs : List Char}
    (h : l.drop j = c :: cs) : l.getD j ' ' = c := by
  have h0 : l[j]? = some c := by
    have h1 := List.getElem?_drop l j 0
    rw [h] at h1
    simpa using h1.symm
  simp [List.getD_eq_getElem?_getD, h0]

theorem drop_succ_of_drop_cons {l : List Char} {j : Nat} {c : Char} {cs : List Char}
    (h : l.drop j = c :: cs) : l.drop (j + 1) = cs := by
  have h1 := List.drop_drop 1 j l
  rw [h] at h1
  simpa using h1.symm

theorem levRowAux_spec (a b : List Char) (i : Nat) :
    ∀ (bs : List Char) (j : Nat), b.drop j = bs →
      levRowAux (a.getD i ' ') bs (rowSpecFrom a b i j (bs.length + 1)) (levSpec a b (i + 1) j)
        = rowSpecFrom a b (i + 1) (j + 1) bs.length := by
  intro bs
  induction bs with
  | nil => intro j h; simp [levRowAux, rowSpecFrom]
  | cons cb bs ih =>
    intro j h
    have hcb : b.getD j ' ' = cb := getD_of_drop_cons h
    have htl : b.drop (j + 1) = bs := drop_succ_of_drop_cons h
    have hnxt :
        min (levSpec a b i j + (if a.getD i ' ' == cb then 0 else 1))
            (min (levSpec a b (i + 1) j + 1) (levSpec a b i (j + 1) + 1))
          = levSpec a b (i + 1) (j + 1) := by
      rw [← hcb]
      simp [levSpec]
    simp only [rowSpecFrom, levRowAux, List.length_cons]
    rw [hnxt]
    have hfold : levSpec a b i (j + 1) :: rowSpecFrom a b i (j + 1 + 1) bs.length
        = rowSpecFrom a b i (j + 1) (bs.length + 1) := rfl
    rw [hfold, ih (j + 1) htl]

theorem levLoop_spec (a b : List Char) :
    ∀ (rest : List Char) (i : Nat), a.drop i = rest →
      levLoop b rest i (rowSpecFrom a b i 0 (b.length + 1))
        = rowSpecFrom a b (i + rest.length) 0 (b.length + 1) := by
  intro rest
  induction rest with
  | nil => intro i _; simp [levLoop]
  | cons ca rest ih =>
    intro i h
    have hca : a.getD i ' ' = ca := getD_of_drop_cons h
    have htl : a.drop (i + 1) = rest := drop_succ_of_drop_cons h
    have hcur : levSpec a b (i + 1) 0 = i + 1 := by simp [levSpec]
    have hrow := levRowAux_spec a b i b 0 rfl
    rw [hcur] at hrow
    have hnewrow :
        (i + 1) :: levRowAux ca b (rowSpecFrom a b i 0 (b.length + 1)) (i + 1)
          = rowSpecFrom a b (i + 1) 0 (b.length + 1) := by
      rw [← hca, hrow, rowSpecFrom, hcur]
    simp only [levLoop]
    rw [hnewrow, ih (i + 1) htl]
    have hlen : i + 1 + rest.length = i + (ca :: rest).length := by
      simp only [List.length_cons]
      omega
    rw [hlen]

theorem rowSpecFrom_zero (a b : List Char) :
    ∀ (k j : Nat), rowSpecFrom a b 0 j k = List.range' j k := by
  intro k
  induction k with
  | zero => intro j; simp [rowSpecFrom]
  | succ k ih => intro j; simp [rowSpecFrom, List.range', levSpec, ih]

theorem rowSpecFrom_ne_nil (a b : List Char) (i j k : Nat) :
    rowSpecFrom a b i j (k + 1) ≠ [] := by
  simp [rowSpecFrom]

theorem getLastD_cons_of_ne_nil {x d : Nat} {l : List Nat} (h : l ≠ []) :
    (x :: l).getLastD d = l.getLastD d := by
  cases l with
  | nil => exact absurd rfl h
  | cons y ys => simp [List.getLastD_cons]

theorem rowSpecFrom_getLastD (a b : List Char) (i : Nat) :
    ∀ (k j : Nat), (rowSpecFrom a b i j (k + 1)).getLastD 0 = levSpec a b i (j + k) := by
  intro k
  induction k with
  | zero => intro j; simp [rowSpecFrom]
  | succ k ih =>
    intro j
    have h1 : rowSpecFrom a b i j (k + 2)
        = levSpec a b i j :: rowSpecFrom a b i (j + 1) (k + 1) := rfl
    rw [h1, getLastD_cons_of_ne_nil (rowSpecFrom_ne_nil a b i (j + 1) k), ih (j + 1)]
    have h3 : j + 1 + k = j + (k + 1) := by omega
    rw [h3]

theorem levSpec_self (a : List Char) : ∀ i, levSpec a a i i = 0 := by
  intro i
  induction i with
  | zero => simp [levSpec]
  | succ i ih => simp [levSpec, ih]

/-- The iterative DP `_levenshtein` of the source computes exactly the
textbook Levenshtein distance with unit insert/delete/substitute costs. -/
theorem _levenshtein_eq_levSpec (a b : String) :
    _levenshtein a b = levSpec a.data b.data a.data.length b.data.length := by
  unfold _levenshtein
  by_cases hab : a = b
  · subst hab
    simp [levSpec_self]
  · have hne : (a == b) = false := by
      simpa using hab
    rw [hne]
    simp only [Bool.false_eq_true, if_false]
    by_cases ha : a.isEmpty
    · have ha' : a.data = [] := by
        have := (String.isEmpty_iff a).mp ha
        rw [this]
      rw [if_pos ha, ha']
      simp only [List.length_nil]
      have h4 : levSpec ([] : List Char) b.data 0 b.data.length = b.data.length := by
        simp [levSpec]
      rw [h4]
      rfl
    · rw [if_neg ha]
      have ha' : a.data ≠ [] := by
        intro hcon
        apply ha
        apply (String.isEmpty_iff a).mpr
        apply String.ext
        rw [hcon]
      by_cases hb : b.isEmpty
      · have hb' : b.data = [] := by
          have := (String.isEmpty_iff b).mp hb
          rw [this]
        rw [if_pos hb, hb']
        obtain ⟨c, cs, hcs⟩ : ∃ c cs, a.data = c :: cs := by
          cases hd : a.data with
          | nil => exact absurd hd ha'
          | cons c cs => exact ⟨c, cs, rfl⟩
        rw [hcs]
        show a.length = levSpec (c :: cs) [] (cs.length + 1) 0
        have h5 : levSpec (c :: cs) ([] : List Char) (cs.length + 1) 0 = cs.length + 1 := by
          simp [levSpec]
        have h6 : a.length = cs.length + 1 := by
          have h7 : a.length = a.data.length := rfl
          rw [h7, hcs]
          rfl
        rw [h5, h6]
      · rw [if_neg hb]
        have hrange : List.range (b.length + 1)
            = rowSpecFrom a.data b.data 0 0 (b.data.length + 1) := by
          rw [rowSpecFrom_zero, List.range_eq_range']
          rfl
        rw [hrange, levLoop_spec a.data b.data a.data 0 rfl]
        have := rowSpecFrom_getLastD a.data b.data a.data.length b.data.length 0
        simpa using this

theorem _levenshtein_self (s : String) : _levenshtein s s = 0 := by
  simp [_levenshtein]

theorem data_append_eq (a b : String) : (a ++ b).data = a.data ++ b.data := by
  cases a
  cases b
  rfl

/-- When the expected answer normalizes to one word, the decision reduces to
the strict single-word branch of the source. -/
theorem decision_single_eq (e c w : String) (he : _normalize_words e = [w]) :
    local_quiz_answer_decision e c =
      (match _normalize_words c with
       | [cw] =>
         if w = cw then _correct_decision
         else if _levenshtein w cw ≤ 1 then _close_decision
         else _wrong_decision
       | _ => _wrong_decision) := by
  unfold local_quiz_answer_decision
  rw [he]

/-- When the expected answer normalizes to two or more words, the decision
reduces to the word-set overlap branch of the source. -/
theorem decision_multi_eq (e c w1 w2 : String) (rest : List String)
    (he : _normalize_words e = w1 :: w2 :: rest) :
    local_quiz_answer_decision e c =
      (if (_normalize_words c).toFinset = ∅ then _wrong_decision
       else if (1 : ℚ) ≤ (((_normalize_words e).toFinset ∩ (_normalize_words c).toFinset).card : ℚ)
          / ((_normalize_words e).toFinset.card : ℚ) then _correct_decision
       else if (0.8 : ℚ) ≤ (((_normalize_words e).toFinset ∩ (_normalize_words c).toFinset).card : ℚ)
          / ((_normalize_words e).toFinset.card : ℚ) then _close_decision
       else _wrong_decision) := by
  unfold local_quiz_answer_decision
  rw [he]

/-- C2: for an expected answer normalizing to exactly one word, a candidate not
normalizing to exactly one word is not correct; an equal single word is correct
and not close; a single word at Levenshtein distance exactly 1 is correct and
close; a single word at distance 2 or more is not correct. -/
theorem C2_single_word_decision (e c w : String) (he : _normalize_words e = [w]) :
    ((_normalize_words c).length ≠ 1 →
      (local_quiz_answer_decision e c).is_correct = false)
    ∧ ∀ cw, _normalize_words c = [cw] →
        ((cw = w → local_quiz_answer_decision e c = _correct_decision)
        ∧ (_levenshtein w cw = 1 → local_quiz_answer_decision e c = _close_decision)
        ∧ (2 ≤ _levenshtein w cw →
            (local_quiz_answer_decision e c).is_correct = false)) := by
  rw [decision_single_eq e c w he]
  constructor
  · intro hlen
    cases hc : _normalize_words c with
    | nil => rfl
    | cons cw tl =>
      cases tl with
      | nil => exact absurd (by rw [hc]; rfl) hlen
      | cons y ys => rfl
  · intro cw hc
    rw [hc]
    refine ⟨?_, ?_, ?_⟩
    · intro hcw
      show (if w = cw then _correct_decision
        else if _levenshtein w cw ≤ 1 then _close_decision else _wrong_decision)
          = _correct_decision
      rw [if_pos hcw.symm]
    · intro hlev
      have hne : ¬ w = cw := by
        intro hcon
        rw [hcon, _levenshtein_self] at hlev
        exact absurd hlev (by omega)
      show (if w = cw then _correct_decision
        else if _levenshtein w cw ≤ 1 then _close_decision else _wrong_decision)
          = _close_decision
      rw [if_neg hne, if_pos (by omega)]
    · intro hlev
      have hne : ¬ w = cw := by
        intro hcon
        rw [hcon, _levenshtein_self] at hlev
        exact absurd hlev (by omega)
      show (if w = cw then _correct_decision
        else if _levenshtein w cw ≤ 1 then _close_decision
        else _wrong_decision).is_correct = false
      rw [if_neg hne, if_neg (by omega)]
      rfl

/-- C2 witness: expected `"Nile"`, candidate `"Nils"` is a distance-1 typo and
is decided correct-and-close. -/
theorem C2_witness :
    local_quiz_answer_decision "Nile" "Nils" = _close_decision :=
  (((C2_single_word_decision "Nile" "Nils" "nile" (by decide)).2
    "nils" (by decide)).2.1) (by decide)

/-- C10: an expected answer normalizing to zero words yields the not-correct,
not-close decision for every candidate (the guard `if not correct_words`
precedes the multi-word branch, so its division is never reached). -/
theorem C10_empty_expected_answer (e c : String) (he : _normalize_words e = []) :
    local_quiz_answer_decision e c = _wrong_decision := by
  unfold local_quiz_answer_decision
  rw [he]

/-- C10 witness: a punctuation-only expected answer is rejected outright. -/
theorem C10_witness :
    _normalize_words "?!" = []
    ∧ local_quiz_answer_decision "?!" "Nile is a river" = _wrong_decision :=
  ⟨by decide, C10_empty_expected_answer "?!" "Nile is a river" (by decide)⟩

/-- C3: for an expected answer normalizing to two or more words, letting the
ratio be |expected-set ∩ candidate-set| / |expected-set| (exact rationals):
ratio 1 is decided correct and not close; ratio in [0.8, 1) is decided correct
and close; ratio below 0.8 or an empty candidate word set is not correct. -/
theorem C3_multi_word_ratio (e c : String)
    (he : 2 ≤ (_normalize_words e).length) :
    (((((_normalize_words e).toFinset ∩ (_normalize_words c).toFinset).card : ℚ)
          / ((_normalize_words e).toFinset.card : ℚ) = 1) →
        local_quiz_answer_decision e c = _correct_decision)
    ∧ (((0.8 : ℚ) ≤ (((_normalize_words e).toFinset ∩ (_normalize_words c).toFinset).card : ℚ)
          / ((_normalize_words e).toFinset.card : ℚ)
        ∧ (((_normalize_words e).toFinset ∩ (_normalize_words c).toFinset).card : ℚ)
          / ((_normalize_words e).toFinset.card : ℚ) < 1) →
        local_quiz_answer_decision e c = _close_decision)
    ∧ (((((_normalize_words e).toFinset ∩ (_normalize_words c).toFinset).card : ℚ)
          / ((_normalize_words e).toFinset.card : ℚ) < 0.8
        ∨ (_normalize_words c).toFinset = ∅) →
        (local_quiz_answer_decision e c).is_correct = false) := by
  cases hE : _normalize_words e with
  | nil => rw [hE] at he; simp at he
  | cons w1 tl =>
    cases tl with
    | nil => rw [hE] at he; simp at he
    | cons w2 rest =>
      have hdec := decision_multi_eq e c w1 w2 rest hE
      rw [hE] at hdec
      rw [hdec]
      refine ⟨?_, ?_, ?_⟩
      · intro hr
        have hA : ¬ (_normalize_words c).toFinset = ∅ := by
          intro h0
          rw [h0, Finset.inter_empty, Finset.card_empty, Nat.cast_zero, zero_div] at hr
          exact absurd hr (by norm_num)
        rw [if_neg hA, if_pos (le_of_eq hr.symm)]
      · intro hr
        have hA : ¬ (_normalize_words c).toFinset = ∅ := by
          intro h0
          have h1 := hr.1
          rw [h0, Finset.inter_empty, Finset.card_empty, Nat.cast_zero, zero_div] at h1
          exact absurd h1 (by norm_num)
        rw [if_neg hA, if_neg (by intro hcon; linarith [hr.2]), if_pos hr.1]
      · intro hr
        by_cases hA : (_normalize_words c).toFinset = ∅
        · rw [if_pos hA]
          rfl
        · have hr8 : (((w1 :: w2 :: rest).toFinset ∩ (_normalize_words c).toFinset).card : ℚ)
              / (((w1 :: w2 :: rest).toFinset : Finset String).card : ℚ) < 0.8 :=
            hr.resolve_right hA
          have h08 : (0.8 : ℚ) < 1 := by norm_num
          rw [if_neg hA, if_neg (by intro hcon; linarith), if_neg (by intro hcon; linarith)]
          rfl

/-- C3 witness: a three-word expected answer with all three words present in
the candidate (in any order) has ratio 1 and is decided correct, not close. -/
theorem C3_witness :
    local_quiz_answer_decision "Alexander Sergeyevich Pushkin" "Pushkin Alexander Sergeyevich"
      = _correct_decision := by
  have h1 : ((_normalize_words "Alexander Sergeyevich Pushkin").toFinset
      ∩ (_normalize_words "Pushkin Alexander Sergeyevich").toFinset).card = 3 := by decide
  have h2 : (_normalize_words "Alexander Sergeyevich Pushkin").toFinset.card = 3 := by decide
  refine (C3_multi_word_ratio "Alexander Sergeyevich Pushkin" "Pushkin Alexander Sergeyevich"
    (by decide)).1 ?_
  rw [h1, h2]
  norm_num

/-- When the answer normalizes to no words, the hint is the unavailable text. -/
theorem build_answer_hint_eq_nil (answer : String) (h : _normalize_words answer = []) :
    build_answer_hint answer = "Подсказка недоступна." := by
  unfold build_answer_hint
  rw [h]
  rfl

/-- When the answer normalizes to one word, the hint reports the character
count of the whitespace-stripped raw answer. -/
theorem build_answer_hint_eq_one (answer w : String) (h : _normalize_words answer = [w]) :
    build_answer_hint answer
      = "Ответ: 1 слово (" ++ toString (pyStrip answer.data).length ++ " букв)." := by
  unfold build_answer_hint
  rw [h]
  rfl

/-- When the answer normalizes to two words, the hint is the two-word text. -/
theorem build_answer_hint_eq_two (answer w1 w2 : String)
    (h : _normalize_words answer = [w1, w2]) :
    build_answer_hint answer = "Ответ: 2 слова." := by
  unfold build_answer_hint
  rw [h]
  rfl

/-- When the answer normalizes to three or more words, the hint states the
exact word count. -/
theorem build_answer_hint_eq_many (answer w1 w2 w3 : String) (rest : List String)
    (h : _normalize_words answer = w1 :: w2 :: w3 :: rest) :
    build_answer_hint answer
      = "Ответ: " ++ toString (rest.length + 3) ++ " слова(-ов)." := by
  unfold build_answer_hint
  rw [h]
  rfl

/-- C6 counterexample: `"Hi!"` normalizes to the single word `"hi"` (2
characters), yet the hint reports 3, the length of the stripped raw answer
`"Hi!"` — so the hint does not report the normalized word's character count. -/
theorem C6_counterexample :
    _normalize_words "Hi!" = ["hi"]
    ∧ "hi".length = 2
    ∧ build_answer_hint "Hi!" = "Ответ: 1 слово (3 букв)."
    ∧ build_answer_hint "Hi!" ≠ "Ответ: 1 слово (" ++ toString ("hi".length) ++ " букв)." := by
  refine ⟨by decide, by decide, by decide, by decide⟩

/-- C6 (amended): for a one-word expected answer the hint reports the character
count of the *whitespace-stripped raw answer* (equal to the word's count when
the answer is exactly the word, but not in general — see the counterexample);
for a two-word answer it states that there are 2 words; for three or more words
it states the exact word count and is never the generic many-words phrase. -/
theorem C6_hint_policy (answer : String) :
    ((_normalize_words answer).length = 1 →
      build_answer_hint answer
        = "Ответ: 1 слово (" ++ toString (pyStrip answer.data).length ++ " букв).")
    ∧ ((_normalize_words answer).length = 2 →
      build_answer_hint answer = "Ответ: 2 слова.")
    ∧ (3 ≤ (_normalize_words answer).length →
      build_answer_hint answer
          = "Ответ: " ++ toString ((_normalize_words answer).length) ++ " слова(-ов)."
        ∧ build_answer_hint answer ≠ "В ответе много слов") := by
  refine ⟨?_, ?_, ?_⟩
  · intro h
    obtain ⟨w, hw⟩ : ∃ w, _normalize_words answer = [w] := by
      cases hl : _normalize_words answer with
      | nil => rw [hl] at h; simp at h
      | cons a tl =>
        cases tl with
        | nil => exact ⟨a, rfl⟩
        | cons b tl2 => rw [hl] at h; simp at h
    exact build_answer_hint_eq_one answer w hw
  · intro h
    obtain ⟨w1, w2, hw⟩ : ∃ w1 w2, _normalize_words answer = [w1, w2] := by
      cases hl : _normalize_words answer with
      | nil => rw [hl] at h; simp at h
      | cons a tl =>
        cases tl with
        | nil => rw [hl] at h; simp at h
        | cons b tl2 =>
          cases tl2 with
          | nil => exact ⟨a, b, rfl⟩
          | cons d tl3 => rw [hl] at h; simp at h
    exact build_answer_hint_eq_two answer w1 w2 hw
  · intro h
    obtain ⟨w1, w2, w3, rest, hw⟩ :
        ∃ w1 w2 w3 rest, _normalize_words answer = w1 :: w2 :: w3 :: rest := by
      cases hl : _normalize_words answer with
      | nil => rw [hl] at h; simp at h
      | cons a tl =>
        cases tl with
        | nil => rw [hl] at h; simp at h
        | cons b tl2 =>
          cases tl2 with
          | nil => rw [hl] at h; simp at h
          | cons d tl3 => exact ⟨a, b, d, tl3, rfl⟩
    have heq := build_answer_hint_eq_many answer w1 w2 w3 rest hw
    have hlen : (_normalize_words answer).length = rest.length + 3 := by
      rw [hw]
      simp only [List.length_cons]
    constructor
    · rw [heq, hlen]
    · rw [heq]
      intro hcon
      have hd := congrArg String.data hcon
      rw [data_append_eq, data_append_eq] at hd
      have hL : ((("Ответ: " : String).data ++ (toString (rest.length + 3)).data)
          ++ (" слова(-ов)." : String).data).head? = some 'О' := rfl
      rw [hd] at hL
      exact absurd hL (by decide)

/-- C6 witness: a three-word expected answer gets the exact-count hint text. -/
theorem C6_witness :
    build_answer_hint "a b c"
        = "Ответ: " ++ toString ((_normalize_words "a b c").length) ++ " слова(-ов)."
    ∧ build_answer_hint "a b c" ≠ "В ответе много слов" :=
  (C6_hint_policy "a b c").2.2 (by decide)

example : _normalize_words "Nile" = ["nile"] := by decide
example : _normalize_words "not  Nile!" = ["not", "nile"] := by decide
example : _levenshtein "nile" "nils" = 1 := by decide
example : _levenshtein "nile" "river" = 3 := by decide
example : (local_quiz_answer_decision "Nile" "Nils").is_close = true := by decide
example : build_answer_hint "Hi!" = "Ответ: 1 слово (3 букв)." := by decide

/-! ## State model: rows, store, effects -/

/-- Configured question timeout (`settings.quiz_timeout_sec`, default 60). -/
def QUIZ_QUESTION_TIMEOUT_SEC : Nat := 60

/-- Configured inter-question pause (`settings.quiz_break_sec`, default 30). -/
def QUIZ_BREAK_BETWEEN_QUESTIONS_SEC : Nat := 30

/-- Model of `QUIZ_TOTAL_QUESTIONS` from `app/services/quiz.py`. -/
def QUIZ_TOTAL_QUESTIONS : Nat := 10

/-- Model of `QuizQuestion` row from `app/models/quiz.py` (the fields the engine reads). -/
structure QuizQuestion where
  id : Nat
  question : String
  answer : String
  deriving DecidableEq

/-- Model of `QuizSession` row from `app/models/quiz.py`.  Timestamps are abstract
`Nat` ticks; the JSON-encoded `used_question_ids_json` / `score_json` columns
are modelled as the decoded id list / insertion-ordered association list. -/
structure QuizSession where
  id : Nat
  chat_id : Int
  topic_id : Int
  is_active : Bool
  started_at : Nat
  ended_at : Option Nat
  current_question_id : Option Nat
  question_started_at : Option Nat
  used_question_ids : List Nat
  scores : List (Int × Nat)
  total_questions : Nat
  questions_asked : Nat
  deriving DecidableEq

/-- Model of `QuizUsedQuestion` row from `app/models/quiz.py`. -/
structure QuizUsedQuestion where
  chat_id : Int
  question_id : Nat
  deriving DecidableEq

/-- The persistent store: the three quiz tables. -/
structure Store where
  questions : List QuizQuestion
  used : List QuizUsedQuestion
  sessionRows : List QuizSession
  deriving DecidableEq

/-- Model of `QuizSession.get_used_ids` from `app/models/quiz.py`. -/
def QuizSession.get_used_ids (s : QuizSession) : List Nat := s.used_question_ids

/-- Model of `QuizSession.add_used_id` from `app/models/quiz.py` (append if absent). -/
def QuizSession.add_used_id (s : QuizSession) (question_id : Nat) : QuizSession :=
  if question_id ∈ s.used_question_ids then s
  else { s with used_question_ids := s.used_question_ids ++ [question_id] }

/-- Score lookup in the decoded score map (`scores.get(user_id, 0)`). -/
def getScore (scores : List (Int × Nat)) (user : Int) : Nat :=
  match scores.find? (fun p => p.1 == user) with
  | some p => p.2
  | none => 0

/-- Model of `QuizSession.add_score` map update from `app/models/quiz.py`: a Python
dict update keeps the key's position when present and appends it otherwise. -/
def addScore (scores : List (Int × Nat)) (user : Int) (points : Nat) : List (Int × Nat) :=
  if scores.any (fun p => p.1 == user) then
    scores.map (fun p => if p.1 == user then (p.1, p.2 + points) else p)
  else scores ++ [(user, points)]

/-- Model of `QuizSession.add_score` from `app/models/quiz.py`. -/
def QuizSession.add_score (s : QuizSession) (user : Int) (points : Nat) : QuizSession :=
  { s with scores := addScore s.scores user points }

/-- Observable side effects of the service and handlers, in program order. -/
inductive Effect where
  | cancelTimeoutTimer (chat_id topic_id : Int)
  | cancelGraceTimer (chat_id topic_id : Int)
  | sendMessage (chat_id topic_id : Int) (text : String)
  | reply (text : String)
  | notifyResults (chat_id topic_id : Int)
  | logException
  | armTimeoutTimer (chat_id topic_id : Int) (captured : Option Nat)
  | sleepBreak
  deriving DecidableEq

/-! ## Service operations (`app/services/quiz.py`) -/

/-- Model of `get_active_session` from `app/services/quiz.py`: `scalar_one_or_none`
over the active-session query; under the at-most-one-active invariant this is
the first matching row. -/
def get_active_session (st : Store) (chat_id topic_id : Int) : Option QuizSession :=
  st.sessionRows.find?
    (fun s => s.chat_id == chat_id && s.topic_id == topic_id && s.is_active)

/-- The question set selected by `get_next_question`'s query: the
`if used_ids:` guard of the source makes the first `where` clause conditional
(it is vacuous for an empty exclude list), the second excludes every question
recorded in `quiz_used_questions` for this chat. -/
def eligible_questions (st : Store) (chat_id : Int) (used_ids : List Nat) :
    List QuizQuestion :=
  let stmt1 := if used_ids.isEmpty then st.questions
    else st.questions.filter (fun q => !(used_ids.contains q.id))
  stmt1.filter
    (fun q => !(st.used.any (fun m => m.chat_id == chat_id && m.question_id == q.id)))

/-- Model of `get_next_question` from `app/services/quiz.py`.  `random.choice` over the
result list is modelled by indexing with the uniformly distributed oracle
`pick`, reduced modulo the list length. -/
def get_next_question (st : Store) (chat_id : Int) (used_ids : List Nat) (pick : Nat) :
    Option QuizQuestion :=
  let questions := eligible_questions st chat_id used_ids
  if questions.isEmpty then none
  else questions.get? (pick % questions.length)

/-- Model of `mark_question_used` from `app/services/quiz.py`. -/
def mark_question_used (st : Store) (chat_id : Int) (question_id : Nat) : Store :=
  { st with used := st.used ++ [{ chat_id := chat_id, question_id := question_id }] }

/-- Model of `reset_used_questions` from `app/services/quiz.py`: delete all used marks
of the chat, returning how many were deleted. -/
def reset_used_questions (st : Store) (chat_id : Int) : Store × Nat :=
  ({ st with used := st.used.filter (fun m => !(m.chat_id == chat_id)) },
   (st.used.filter (fun m => m.chat_id == chat_id)).length)

/-- Model of `start_quiz_session` from `app/services/quiz.py`: create the active row,
`session.add`, `flush`. -/
def start_quiz_session (st : Store) (chat_id topic_id : Int) (newId now : Nat) :
    Store × QuizSession :=
  let quiz_session : QuizSession :=
    { id := newId, chat_id := chat_id, topic_id := topic_id, is_active := true,
      started_at := now, ended_at := none, current_question_id := none,
      question_started_at := none, used_question_ids := [], scores := [],
      total_questions := QUIZ_TOTAL_QUESTIONS, questions_asked := 0 }
  ({ st with sessionRows := st.sessionRows ++ [quiz_session] }, quiz_session)

/-- Model of `end_quiz_session` from `app/services/quiz.py`: mark the session inactive,
clear the current-question pointer, set the end time; it never touches
`quiz_questions` (the Task 1 fix). -/
def end_quiz_session (quiz_session : QuizSession) (now : Nat) : QuizSession :=
  { quiz_session with
      is_active := false, current_question_id := none, ended_at := some now }

/-- Model of `session.commit()` after mutating a session object: persist it over the
row with the same primary key. -/
def commitSession (st : Store) (quiz_session : QuizSession) : Store :=
  { st with sessionRows :=
      st.sessionRows.map (fun r => if r.id == quiz_session.id then quiz_session else r) }

/-- Failure oracle for one `safe_finish_quiz` body: everything succeeds, the
persistence step (`end_quiz_session`/`flush`/`commit`) raises, or the notify
callback raises after the commit. -/
inductive FinStep where
  | ok
  | failPersist
  | failNotify
  deriving DecidableEq

/-- Result of `safe_finish_quiz`: final guard set, store, emitted effects, and
whether an exception escaped to the caller. -/
structure FinishResult where
  finishing : List (Int × Int)
  store : Store
  effects : List Effect
  raised : Bool
  deriving DecidableEq

/-- Model of `safe_finish_quiz` from `app/services/quiz.py`.  `finishing` is the
process-wide `_quiz_finishing` set.  The `try` body closes and commits the
session and invokes the notify callback; on `FinStep.failPersist` the caught
exception is logged and the transaction rolled back (store restored); on
`FinStep.failNotify` the commit has already happened, so the logged-and-caught
notify exception leaves the committed close in place.  The `finally` block
always discards the key, and the catch-all `except Exception` means no
exception reaches the caller (`raised := false` in every branch). -/
def safe_finish_quiz (finishing : List (Int × Int)) (st : Store) (chat_id topic_id : Int)
    (quiz_session : QuizSession) (now : Nat) (mode : FinStep) : FinishResult :=
  let key := (chat_id, topic_id)
  if key ∈ finishing then
    { finishing := finishing, store := st, effects := [], raised := false }
  else
    let finishing1 := key :: finishing
    let body : Store × List Effect × Bool :=
      match mode with
      | FinStep.ok =>
        (commitSession st (end_quiz_session quiz_session now),
         [Effect.notifyResults chat_id topic_id], false)
      | FinStep.failPersist => (st, [], true)
      | FinStep.failNotify =>
        (commitSession st (end_quiz_session quiz_session now), [], true)
    { finishing := finishing1.erase key,
      store := body.1,
      effects := body.2.1 ++ (if body.2.2 then [Effect.logException] else []),
      raised := false }

/-- Model of `cancel_all_timers` from `app/services/quiz.py`, as its effect trace:
cancel the timeout slot, then the grace slot. -/
def cancel_all_timers (chat_id topic_id : Int) : List Effect :=
  [Effect.cancelTimeoutTimer chat_id topic_id, Effect.cancelGraceTimer chat_id topic_id]

/-! ## Handlers (`app/handlers/quiz.py`) -/

/-- What a handler does after its own step: stop, or raise the recursive
`_send_question` step after the inter-question pause. -/
inductive FollowUp where
  | stop
  | nextQuestion
  deriving DecidableEq

/-- Result of one fired timeout callback. -/
structure StepResult where
  finishing : List (Int × Int)
  store : Store
  effects : List Effect
  followUp : FollowUp
  deriving DecidableEq

/-- Result of `_send_question`: guard set, store, effects, the captured
`question_started_at` of the armed timeout callback (if one was armed), and
the mutated in-memory session object. -/
structure SendQuestionResult where
  finishing : List (Int × Int)
  store : Store
  effects : List Effect
  armed : Option (Option Nat)
  session : QuizSession
  deriving DecidableEq

/-- Model of `_send_question` from `app/handlers/quiz.py`: ask the selector for the
next question; if none, finalize via `safe_finish_quiz` (never resetting the
used-marks history); otherwise set the current question and its start time,
append the in-session used id, bump `questions_asked`, record the used mark,
commit, announce the question with its hint, and arm the timeout timer whose
callback captures the `question_started_at` value just written. -/
def _send_question (finishing : List (Int × Int)) (st : Store) (chat_id topic_id : Int)
    (quiz_session : QuizSession) (pick now : Nat) (mode : FinStep) : SendQuestionResult :=
  match get_next_question st chat_id quiz_session.get_used_ids pick with
  | none =>
    let r := safe_finish_quiz finishing st chat_id topic_id quiz_session now mode
    { finishing := r.finishing, store := r.store, effects := r.effects,
      armed := none, session := quiz_session }
  | some question =>
    let qs1 :=
      { quiz_session with
          current_question_id := some question.id,
          question_started_at := some now }
    let qs2 := qs1.add_used_id question.id
    let qs3 := { qs2 with questions_asked := qs2.questions_asked + 1 }
    let st1 := mark_question_used st chat_id question.id
    let st2 := commitSession st1 qs3
    let hint := build_answer_hint question.answer
    { finishing := finishing, store := st2,
      effects := [Effect.sendMessage chat_id topic_id
          ("❓ <b>Вопрос " ++ toString qs3.questions_asked ++ "/"
            ++ toString QUIZ_TOTAL_QUESTIONS ++ ":</b>\n" ++ question.question
            ++ "\n\n💡 " ++ hint),
        Effect.armTimeoutTimer chat_id topic_id qs3.question_started_at],
      armed := some qs3.question_started_at, session := qs3 }

/-- Model of `_timeout_handler` from `app/handlers/quiz.py`, as the continuation that
runs when the armed timer fires (after its initial `asyncio.sleep`).
`captured` is the `question_started_at` closed over at arm time and `answer`
the armed question's answer text.  The recursive `_send_question` call after
the break is represented by `FollowUp.nextQuestion`. -/
def _timeout_handler (finishing : List (Int × Int)) (st : Store) (chat_id topic_id : Int)
    (captured : Option Nat) (answer : String) (now : Nat) (mode : FinStep) : StepResult :=
  match get_active_session st chat_id topic_id with
  | none =>
    { finishing := finishing, store := st, effects := [], followUp := FollowUp.stop }
  | some qs =>
    if qs.question_started_at ≠ captured then
      { finishing := finishing, store := st, effects := [], followUp := FollowUp.stop }
    else
      let msg := Effect.sendMessage chat_id topic_id
        ("⏰ Время вышло! Правильный ответ: <b>" ++ answer ++ "</b>")
      if QUIZ_TOTAL_QUESTIONS ≤ qs.questions_asked then
        let r := safe_finish_quiz finishing st chat_id topic_id qs now mode
        { finishing := r.finishing, store := r.store, effects := msg :: r.effects,
          followUp := FollowUp.stop }
      else
        { finishing := finishing, store := st, effects := [msg, Effect.sleepBreak],
          followUp := FollowUp.nextQuestion }

/-- The session-starting core of `cmd_start_quiz` from `app/handlers/quiz.py`
(after the chat and admin checks): conflict-check, then create and commit. -/
def cmd_start_quiz_core (st : Store) (chat_id topic_id : Int) (newId now : Nat) :
    Store × List Effect × Option QuizSession :=
  match get_active_session st chat_id topic_id with
  | some _ => (st, [Effect.reply ("Викторина уже идёт!")], none)
  | none =>
    let r := start_quiz_session st chat_id topic_id newId now
    (r.1, [Effect.reply ("🎮 Викторина начинается! Приготовьтесь...")], some r.2)

/-- Result of `handle_quiz_answer`: guard set, store, effects, the mutated
in-memory session (`none` on the skip paths), and the follow-up step. -/
structure AnswerResult where
  finishing : List (Int × Int)
  store : Store
  effects : List Effect
  session : Option QuizSession
  followUp : FollowUp
  deriving DecidableEq

/-- The quiz-answer path of `handle_quiz_answer` from `app/handlers/quiz.py`
(after the chat/topic routing): look up the active session and its outstanding
question; on a correct decision cancel both timers before anything else,
credit one point to the answerer, clear `current_question_id`, reply (adding
the almost-exact note exactly when the decision is close), then either
finalize (target reached) or commit and pause before the next question.  A
wrong decision falls through with no effects; a missing session, current
question id or question row is the skip path. -/
def handle_quiz_answer (finishing : List (Int × Int)) (st : Store) (chat_id topic_id : Int)
    (user_id : Int) (text : String) (now : Nat) (mode : FinStep) : AnswerResult :=
  match get_active_session st chat_id topic_id with
  | none =>
    { finishing := finishing, store := st, effects := [], session := none,
      followUp := FollowUp.stop }
  | some quiz_session =>
    match quiz_session.current_question_id with
    | none =>
      { finishing := finishing, store := st, effects := [], session := none,
        followUp := FollowUp.stop }
    | some qid =>
      match st.questions.find? (fun q => q.id == qid) with
      | none =>
        { finishing := finishing, store := st, effects := [], session := none,
          followUp := FollowUp.stop }
      | some question =>
        let decision := local_quiz_answer_decision question.answer text
        if decision.is_correct then
          let qs1 := quiz_session.add_score user_id 1
          let qs2 := { qs1 with current_question_id := none }
          let suffix := if decision.is_close then " (почти точно!)" else ""
          let effs := cancel_all_timers chat_id topic_id
            ++ [Effect.reply ("✅ Верно" ++ suffix ++ "! Правильный ответ: <b>"
                ++ question.answer ++ "</b>")]
          if QUIZ_TOTAL_QUESTIONS ≤ qs2.questions_asked then
            let r := safe_finish_quiz finishing st chat_id topic_id qs2 now mode
            { finishing := r.finishing, store := r.store, effects := effs ++ r.effects,
              session := some qs2, followUp := FollowUp.stop }
          else
            { finishing := finishing, store := commitSession st qs2,
              effects := effs ++ [Effect.sleepBreak], session := some qs2,
              followUp := FollowUp.nextQuestion }
        else
          { finishing := finishing, store := st, effects := [],
            session := some quiz_session, followUp := FollowUp.stop }

/-! ## Claim C1: the finalization guard -/

/-- C1: a finalize call whose (conversation, topic) key is already in the
process-wide finalizing set returns immediately with no side effects;
otherwise the key is inserted before the close (so a concurrent second call
issued while the body runs is a no-op) and is removed again in every failure
mode; persistence and notification errors never propagate to the caller. -/
theorem C1_finalize_guard (finishing : List (Int × Int)) (st : Store) (chat_id topic_id : Int)
    (qs : QuizSession) (now : Nat) (mode : FinStep) :
    ((chat_id, topic_id) ∈ finishing →
      safe_finish_quiz finishing st chat_id topic_id qs now mode
        = { finishing := finishing, store := st, effects := [], raised := false })
    ∧ ((chat_id, topic_id) ∉ finishing →
      (safe_finish_quiz finishing st chat_id topic_id qs now mode).finishing = finishing
      ∧ ∀ (st2 : Store) (qs2 : QuizSession) (now2 : Nat) (mode2 : FinStep),
        safe_finish_quiz ((chat_id, topic_id) :: finishing) st2 chat_id topic_id qs2 now2 mode2
          = { finishing := (chat_id, topic_id) :: finishing, store := st2,
              effects := [], raised := false })
    ∧ (safe_finish_quiz finishing st chat_id topic_id qs now mode).raised = false := by
  refine ⟨?_, ?_, ?_⟩
  · intro hmem
    simp only [safe_finish_quiz]
    rw [if_pos hmem]
  · intro hmem
    constructor
    · simp only [safe_finish_quiz]
      rw [if_neg hmem]
      simp [List.erase_cons_head]
    · intro st2 qs2 now2 mode2
      simp only [safe_finish_quiz]
      rw [if_pos (List.mem_cons_self _ _)]
  · simp only [safe_finish_quiz]
    by_cases hmem : (chat_id, topic_id) ∈ finishing
    · rw [if_pos hmem]
    · rw [if_neg hmem]

/-- Sample empty store for concrete instantiations. -/
def sampleStore : Store := { questions := [], used := [], sessionRows := [] }

/-- Sample session row for concrete instantiations. -/
def sampleSession : QuizSession :=
  { id := 1, chat_id := 1, topic_id := 2, is_active := true, started_at := 0,
    ended_at := none, current_question_id := none, question_started_at := none,
    used_question_ids := [], scores := [], total_questions := 10, questions_asked := 10 }

/-- C1 witness: a guarded call is a no-op; an unguarded call (even one whose
notify step fails) releases the key and raises nothing. -/
theorem C1_witness :
    safe_finish_quiz [(1, 2)] sampleStore 1 2 sampleSession 5 FinStep.ok
      = { finishing := [(1, 2)], store := sampleStore, effects := [], raised := false }
    ∧ (safe_finish_quiz [] sampleStore 1 2 sampleSession 5 FinStep.failNotify).finishing = []
    ∧ (safe_finish_quiz [] sampleStore 1 2 sampleSession 5 FinStep.failNotify).raised
        = false := by
  refine ⟨(C1_finalize_guard [(1, 2)] sampleStore 1 2 sampleSession 5 FinStep.ok).1
      (by decide),
    ((C1_finalize_guard [] sampleStore 1 2 sampleSession 5 FinStep.failNotify).2.1
      (by decide)).1,
    (C1_finalize_guard [] sampleStore 1 2 sampleSession 5 FinStep.failNotify).2.2⟩

/-! ## Claim C5: finalize field effects and the question-table frame -/

theorem questions_commitSession (st : Store) (qs : QuizSession) :
    (commitSession st qs).questions = st.questions := rfl

theorem questions_safe_finish (finishing : List (Int × Int)) (st : Store)
    (chat_id topic_id : Int) (qs : QuizSession) (now : Nat) (mode : FinStep) :
    (safe_finish_quiz finishing st chat_id topic_id qs now mode).store.questions
      = st.questions := by
  by_cases hmem : (chat_id, topic_id) ∈ finishing
  · simp [safe_finish_quiz, hmem]
  · cases mode <;> simp [safe_finish_quiz, hmem, commitSession]

theorem used_safe_finish (finishing : List (Int × Int)) (st : Store)
    (chat_id topic_id : Int) (qs : QuizSession) (now : Nat) (mode : FinStep) :
    (safe_finish_quiz finishing st chat_id topic_id qs now mode).store.used
      = st.used := by
  by_cases hmem : (chat_id, topic_id) ∈ finishing
  · simp [safe_finish_quiz, hmem]
  · cases mode <;> simp [safe_finish_quiz, hmem, commitSession]

theorem questions_send_question (finishing : List (Int × Int)) (st : Store)
    (chat_id topic_id : Int) (qs : QuizSession) (pick now : Nat) (mode : FinStep) :
    (_send_question finishing st chat_id topic_id qs pick now mode).store.questions
      = st.questions := by
  unfold _send_question
  cases get_next_question st chat_id qs.get_used_ids pick with
  | none => exact questions_safe_finish finishing st chat_id topic_id qs now mode
  | some question => rfl

theorem questions_timeout_handler (finishing : List (Int × Int)) (st : Store)
    (chat_id topic_id : Int) (captured : Option Nat) (answer : String) (now : Nat)
    (mode : FinStep) :
    (_timeout_handler finishing st chat_id topic_id captured answer now mode).store.questions
      = st.questions := by
  unfold _timeout_handler
  split
  · rfl
  · dsimp only
    split
    · rfl
    · split
      · exact questions_safe_finish finishing st chat_id topic_id _ now mode
      · rfl

theorem questions_handle_answer (finishing : List (Int × Int)) (st : Store)
    (chat_id topic_id user_id : Int) (text : String) (now : Nat) (mode : FinStep) :
    (handle_quiz_answer finishing st chat_id topic_id user_id text now mode).store.questions
      = st.questions := by
  unfold handle_quiz_answer
  split
  · rfl
  · split
    · rfl
    · split
      · rfl
      · dsimp only
        split
        · split
          · exact questions_safe_finish finishing st chat_id topic_id _ now mode
          · rfl
        · rfl

/-- C5: `end_quiz_session` sets `active := false`, `endedAt := now`, clears
`currentQuestionId`; and no session operation of the engine ever changes the
`quiz_questions` table — only used marks and session rows change. -/
theorem C5_finalize_fields_and_question_frame :
    (∀ (qs : QuizSession) (now : Nat),
      (end_quiz_session qs now).is_active = false
      ∧ (end_quiz_session qs now).ended_at = some now
      ∧ (end_quiz_session qs now).current_question_id = none)
    ∧ (∀ (st : Store) (chat_id topic_id : Int) (newId now : Nat),
      ((start_quiz_session st chat_id topic_id newId now).1).questions = st.questions)
    ∧ (∀ (st : Store) (qs : QuizSession), (commitSession st qs).questions = st.questions)
    ∧ (∀ (st : Store) (chat_id : Int) (qid : Nat),
      (mark_question_used st chat_id qid).questions = st.questions)
    ∧ (∀ (st : Store) (chat_id : Int),
      ((reset_used_questions st chat_id).1).questions = st.questions)
    ∧ (∀ (finishing : List (Int × Int)) (st : Store) (chat_id topic_id : Int)
        (qs : QuizSession) (now : Nat) (mode : FinStep),
      (safe_finish_quiz finishing st chat_id topic_id qs now mode).store.questions
        = st.questions)
    ∧ (∀ (finishing : List (Int × Int)) (st : Store) (chat_id topic_id : Int)
        (qs : QuizSession) (pick now : Nat) (mode : FinStep),
      (_send_question finishing st chat_id topic_id qs pick now mode).store.questions
        = st.questions)
    ∧ (∀ (finishing : List (Int × Int)) (st : Store) (chat_id topic_id : Int)
        (captured : Option Nat) (answer : String) (now : Nat) (mode : FinStep),
      (_timeout_handler finishing st chat_id topic_id captured answer now mode).store.questions
        = st.questions)
    ∧ (∀ (finishing : List (Int × Int)) (st : Store) (chat_id topic_id user_id : Int)
        (text : String) (now : Nat) (mode : FinStep),
      (handle_quiz_answer finishing st chat_id topic_id user_id text now mode).store.questions
        = st.questions)
    ∧ (∀ (st : Store) (chat_id topic_id : Int) (newId now : Nat),
      ((cmd_start_quiz_core st chat_id topic_id newId now).1).questions = st.questions) := by
  refine ⟨fun qs now => ⟨rfl, rfl, rfl⟩, fun st c t i n => rfl, fun st qs => rfl,
    fun st c q => rfl, fun st c => rfl, questions_safe_finish, questions_send_question,
    questions_timeout_handler, questions_handle_answer, ?_⟩
  intro st chat_id topic_id newId now
  unfold cmd_start_quiz_core
  cases get_active_session st chat_id topic_id with
  | some s => rfl
  | none => rfl

/-! ## Claim C8: startSession conflict handling and the single-active invariant -/

/-- Number of active session rows for a (conversation, topic) pair. -/
def activeCount (st : Store) (chat_id topic_id : Int) : Nat :=
  (st.sessionRows.filter
    (fun s => s.chat_id == chat_id && s.topic_id == topic_id && s.is_active)).length

/-- At most one active session row exists per (conversation, topic) pair. -/
def atMostOneActive (st : Store) : Prop :=
  ∀ chat_id topic_id, activeCount st chat_id topic_id ≤ 1

theorem start_quiz_session_fields (st : Store) (chat_id topic_id : Int) (newId now : Nat) :
    ((start_quiz_session st chat_id topic_id newId now).2).chat_id = chat_id
    ∧ ((start_quiz_session st chat_id topic_id newId now).2).topic_id = topic_id
    ∧ ((start_quiz_session st chat_id topic_id newId now).2).is_active = true :=
  ⟨rfl, rfl, rfl⟩

/-- C8: starting while an active session exists for the pair replies with the
conflict message and creates nothing; otherwise a new active session is
created, persisted and returned; and the step preserves the at-most-one-active
invariant. -/
theorem C8_start_session (st : Store) (chat_id topic_id : Int) (newId now : Nat) :
    ((∃ s0, get_active_session st chat_id topic_id = some s0) →
      cmd_start_quiz_core st chat_id topic_id newId now
        = (st, [Effect.reply ("Викторина уже идёт!")], none))
    ∧ (get_active_session st chat_id topic_id = none →
      (cmd_start_quiz_core st chat_id topic_id newId now).1
          = (start_quiz_session st chat_id topic_id newId now).1
      ∧ (cmd_start_quiz_core st chat_id topic_id newId now).2.2
          = some (start_quiz_session st chat_id topic_id newId now).2
      ∧ ((start_quiz_session st chat_id topic_id newId now).2).is_active = true
      ∧ (start_quiz_session st chat_id topic_id newId now).2
          ∈ ((start_quiz_session st chat_id topic_id newId now).1).sessionRows)
    ∧ (atMostOneActive st →
      atMostOneActive (cmd_start_quiz_core st chat_id topic_id newId now).1) := by
  refine ⟨?_, ?_, ?_⟩
  · intro hex
    obtain ⟨s0, hs0⟩ := hex
    unfold cmd_start_quiz_core
    rw [hs0]
  · intro hnone
    unfold cmd_start_quiz_core
    rw [hnone]
    refine ⟨rfl, rfl, rfl, ?_⟩
    show (start_quiz_session st chat_id topic_id newId now).2
        ∈ st.sessionRows ++ [(start_quiz_session st chat_id topic_id newId now).2]
    simp
  · intro hinv
    unfold cmd_start_quiz_core
    cases hga : get_active_session st chat_id topic_id with
    | some s0 => exact hinv
    | none =>
      dsimp only
      intro c t
      show (List.filter (fun s => s.chat_id == c && s.topic_id == t && s.is_active)
          (st.sessionRows ++ [(start_quiz_session st chat_id topic_id newId now).2])).length ≤ 1
      rw [List.filter_append, List.length_append]
      by_cases hp : (((start_quiz_session st chat_id topic_id newId now).2).chat_id == c
          && ((start_quiz_session st chat_id topic_id newId now).2).topic_id == t
          && ((start_quiz_session st chat_id topic_id newId now).2).is_active) = true

      · have hct : chat_id = c ∧ topic_id = t := by
          simp only [Bool.and_eq_true, beq_iff_eq] at hp
          exact ⟨hp.1.1, hp.1.2⟩
        have hnil : st.sessionRows.filter
            (fun s => s.chat_id == c && s.topic_id == t && s.is_active) = [] := by
          rw [List.filter_eq_nil_iff]
          intro s hs
          have hfind := List.find?_eq_none.mp hga s hs
          rw [← hct.1, ← hct.2]
          exact hfind
        rw [hnil]
        simp only [List.length_nil, Nat.zero_add]
        have hle : (List.filter (fun s => s.chat_id == c && s.topic_id == t && s.is_active)
            [(start_quiz_session st chat_id topic_id newId now).2]).length
            ≤ ([(start_quiz_session st chat_id topic_id newId now).2]).length :=
          List.length_filter_le _ _
        simpa using hle
      · have hone : (List.filter (fun s => s.chat_id == c && s.topic_id == t && s.is_active)
            [(start_quiz_session st chat_id topic_id newId now).2]).length = 0 := by
          simp [List.filter, hp]
        rw [hone]
        have := hinv c t
        unfold activeCount at this
        omega

/-- C8 witness: starting over an active session replies with the conflict and
leaves the store unchanged; starting on an empty store creates the session;
the empty store satisfies and keeps the invariant. -/
theorem C8_witness :
    cmd_start_quiz_core
        { questions := [], used := [], sessionRows := [sampleSession] } 1 2 7 0
      = ({ questions := [], used := [], sessionRows := [sampleSession] },
         [Effect.reply ("Викторина уже идёт!")], none)
    ∧ (cmd_start_quiz_core sampleStore 1 2 7 0).2.2
        = some (start_quiz_session sampleStore 1 2 7 0).2
    ∧ atMostOneActive (cmd_start_quiz_core sampleStore 1 2 7 0).1 := by
  refine ⟨(C8_start_session { questions := [], used := [], sessionRows := [sampleSession] }
      1 2 7 0).1 ⟨sampleSession, by decide⟩,
    ((C8_start_session sampleStore 1 2 7 0).2.1 (by decide)).2.1,
    (C8_start_session sampleStore 1 2 7 0).2.2 ?_⟩
  intro c t
  exact Nat.zero_le 1

/-! ## Claim C4: timeout callbacks capture the question instance -/

theorem add_used_id_question_started_at (s : QuizSession) (qid : Nat) :
    (s.add_used_id qid).question_started_at = s.question_started_at := by
  unfold QuizSession.add_used_id
  split
  · rfl
  · rfl

/-- C4: an armed timeout callback captures the `question_started_at` written
when the question was sent; when it fires, if no active session exists for the
key or the session's current `question_started_at` differs from the captured
one, it performs no action: no message, no store change, no finalize, no
follow-up. -/
theorem C4_timeout_capture_and_stale_noop :
    (∀ (finishing : List (Int × Int)) (st : Store) (chat_id topic_id : Int)
        (qs : QuizSession) (pick now : Nat) (mode : FinStep) (q : QuizQuestion),
      get_next_question st chat_id qs.get_used_ids pick = some q →
        (_send_question finishing st chat_id topic_id qs pick now mode).armed
            = some ((_send_question finishing st chat_id topic_id qs pick now
                mode).session.question_started_at)
        ∧ (_send_question finishing st chat_id topic_id qs pick now
              mode).session.question_started_at = some now)
    ∧ (∀ (finishing : List (Int × Int)) (st : Store) (chat_id topic_id : Int)
        (captured : Option Nat) (answer : String) (now : Nat) (mode : FinStep),
      (∀ qs, get_active_session st chat_id topic_id = some qs →
          qs.question_started_at ≠ captured) →
        _timeout_handler finishing st chat_id topic_id captured answer now mode
          = { finishing := finishing, store := st, effects := [],
              followUp := FollowUp.stop }) := by
  constructor
  · intro finishing st chat_id topic_id qs pick now mode q hq
    unfold _send_question
    rw [hq]
    dsimp only
    refine ⟨rfl, ?_⟩
    show (QuizSession.add_used_id
        { qs with current_question_id := some q.id, question_started_at := some now }
        q.id).question_started_at = some now
    rw [add_used_id_question_started_at]
  · intro finishing st chat_id topic_id captured answer now mode h
    unfold _timeout_handler
    cases hga : get_active_session st chat_id topic_id with
    | none => rfl
    | some qs =>
      dsimp only
      rw [if_pos (h qs hga)]

/-- Sample question row for concrete instantiations. -/
def sampleQuestion : QuizQuestion := { id := 1, question := "Q?", answer := "nile" }

/-- A store holding one question and no sessions. -/
def storeWithQuestion : Store :=
  { questions := [sampleQuestion], used := [], sessionRows := [] }

/-- A fresh active session for chat 1, topic 2. -/
def freshSession : QuizSession :=
  { id := 1, chat_id := 1, topic_id := 2, is_active := true, started_at := 0,
    ended_at := none, current_question_id := none, question_started_at := none,
    used_question_ids := [], scores := [], total_questions := 10, questions_asked := 0 }

/-- An active session whose current question instance started at tick 3. -/
def staleSession : QuizSession := { freshSession with question_started_at := some 3 }

/-- A store whose only session is `staleSession`. -/
def staleStore : Store := { questions := [], used := [], sessionRows := [staleSession] }

/-- C4 witness: arming captures the fresh `question_started_at`; a callback
that captured tick 7 while the session is now at tick 3 does nothing. -/
theorem C4_witness :
    (_send_question [] storeWithQuestion 1 2 freshSession 0 99 FinStep.ok).armed
        = some (some 99)
    ∧ _timeout_handler [] staleStore 1 2 (some 7) ("nile") 0 FinStep.ok
        = { finishing := [], store := staleStore, effects := [],
            followUp := FollowUp.stop } := by
  constructor
  · have h := (C4_timeout_capture_and_stale_noop).1 [] storeWithQuestion 1 2 freshSession
      0 99 FinStep.ok sampleQuestion (by decide)
    rw [h.1, h.2]
  · refine (C4_timeout_capture_and_stale_noop).2 [] staleStore 1 2 (some 7) ("nile") 0
      FinStep.ok ?_
    intro qs hqs
    have h0 : get_active_session staleStore 1 2 = some staleSession := by decide
    rw [h0] at hqs
    have h1 := Option.some.inj hqs
    rw [← h1]
    decide

/-! ## Claim C7: the question selector -/

/-- The selector's eligibility predicate, spelled out: a question qualifies iff
it is stored, not excluded by the caller's id list, and not marked used for the
conversation. -/
theorem mem_eligible_iff (st : Store) (chat_id : Int) (used_ids : List Nat)
    (q : QuizQuestion) :
    q ∈ eligible_questions st chat_id used_ids ↔
      (q ∈ st.questions ∧ ¬ q.id ∈ used_ids
        ∧ ∀ m ∈ st.used, m.chat_id = chat_id → ¬ m.question_id = q.id) := by
  unfold eligible_questions
  by_cases hu : used_ids.isEmpty
  · have hnil : used_ids = [] := List.isEmpty_iff.mp hu
    subst hnil
    simp [List.mem_filter, List.any_eq_false, not_and]
  · rw [if_neg hu]
    simp [List.mem_filter, List.any_eq_false, not_and, and_assoc]
    tauto

/-- The selector answers `none` exactly when its query result is empty. -/
theorem get_next_question_eq_none_iff (st : Store) (chat_id : Int) (used_ids : List Nat)
    (pick : Nat) :
    get_next_question st chat_id used_ids pick = none
      ↔ eligible_questions st chat_id used_ids = [] := by
  unfold get_next_question
  by_cases he : (eligible_questions st chat_id used_ids).isEmpty
  · simp [he, List.isEmpty_iff.mp he]
  · rw [if_neg he]
    have hne : eligible_questions st chat_id used_ids ≠ [] := by
      intro hcon
      exact he (by simp [hcon])
    have hlen : 0 < (eligible_questions st chat_id used_ids).length :=
      List.length_pos.mpr hne
    constructor
    · intro hcon
      have := List.get?_eq_none.mp hcon
      have hmod := Nat.mod_lt pick hlen
      omega
    · intro hcon
      exact absurd hcon hne

/-- C7: the selector returns only stored questions neither excluded nor marked
used for the conversation, chosen by uniform index over the full result list
(every eligible question is a possible result); it returns `none` exactly when
no eligible question exists, and in that case `_send_question` finalizes via
`safe_finish_quiz` and leaves the used-marks history untouched (no automatic
reset). -/
theorem C7_question_selector :
    (∀ (st : Store) (chat_id : Int) (used_ids : List Nat) (pick : Nat) (q : QuizQuestion),
      get_next_question st chat_id used_ids pick = some q →
        q ∈ st.questions ∧ ¬ q.id ∈ used_ids
        ∧ ∀ m ∈ st.used, m.chat_id = chat_id → ¬ m.question_id = q.id)
    ∧ (∀ (st : Store) (chat_id : Int) (used_ids : List Nat) (pick : Nat),
      get_next_question st chat_id used_ids pick = none
        ↔ ∀ q ∈ st.questions, ¬ (¬ q.id ∈ used_ids
            ∧ ∀ m ∈ st.used, m.chat_id = chat_id → ¬ m.question_id = q.id))
    ∧ (∀ (st : Store) (chat_id : Int) (used_ids : List Nat) (q : QuizQuestion),
      (q ∈ st.questions ∧ ¬ q.id ∈ used_ids
          ∧ ∀ m ∈ st.used, m.chat_id = chat_id → ¬ m.question_id = q.id) →
        ∃ pick, get_next_question st chat_id used_ids pick = some q)
    ∧ (∀ (finishing : List (Int × Int)) (st : Store) (chat_id topic_id : Int)
        (qs : QuizSession) (pick now : Nat) (mode : FinStep),
      get_next_question st chat_id qs.get_used_ids pick = none →
        _send_question finishing st chat_id topic_id qs pick now mode
          = { finishing := (safe_finish_quiz finishing st chat_id topic_id qs now
                mode).finishing,
              store := (safe_finish_quiz finishing st chat_id topic_id qs now mode).store,
              effects := (safe_finish_quiz finishing st chat_id topic_id qs now
                mode).effects,
              armed := none, session := qs }
        ∧ (_send_question finishing st chat_id topic_id qs pick now mode).store.used
            = st.used) := by
  refine ⟨?_, ?_, ?_, ?_⟩
  · intro st chat_id used_ids pick q hq
    have hmem : q ∈ eligible_questions st chat_id used_ids := by
      unfold get_next_question at hq
      by_cases he : (eligible_questions st chat_id used_ids).isEmpty
      · rw [if_pos he] at hq
        exact absurd hq (by simp)
      · rw [if_neg he] at hq
        exact List.get?_mem hq
    exact (mem_eligible_iff st chat_id used_ids q).mp hmem
  · intro st chat_id used_ids pick
    rw [get_next_question_eq_none_iff]
    constructor
    · intro hnil q hq hel
      have : q ∈ eligible_questions st chat_id used_ids :=
        (mem_eligible_iff st chat_id used_ids q).mpr ⟨hq, hel.1, hel.2⟩
      rw [hnil] at this
      exact absurd this (by simp)
    · intro h
      rw [List.eq_nil_iff_forall_not_mem]
      intro q hq
      have := (mem_eligible_iff st chat_id used_ids q).mp hq
      exact h q this.1 ⟨this.2.1, this.2.2⟩
  · intro st chat_id used_ids q hel
    have hmem : q ∈ eligible_questions st chat_id used_ids :=
      (mem_eligible_iff st chat_id used_ids q).mpr hel
    obtain ⟨n, hn⟩ := List.mem_iff_get?.mp hmem
    refine ⟨n, ?_⟩
    unfold get_next_question
    have hne : eligible_questions st chat_id used_ids ≠ [] := by
      intro hcon
      rw [hcon] at hmem
      exact absurd hmem (by simp)
    rw [if_neg (by simp [List.isEmpty_iff, hne])]
    have hlt : n < (eligible_questions st chat_id used_ids).length := by
      by_contra hge
      rw [List.get?_eq_none.mpr (by omega)] at hn
      exact Option.noConfusion hn
    rw [Nat.mod_eq_of_lt hlt]
    exact hn
  · intro finishing st chat_id topic_id qs pick now mode hnone
    unfold _send_question
    rw [hnone]
    exact ⟨rfl, used_safe_finish finishing st chat_id topic_id qs now mode⟩

/-- A store used to exercise the selector: one marked-used question and one
fresh question. -/
def storeC7 : Store :=
  { questions := [sampleQuestion, { id := 2, question := "R?", answer := "volga" }],
    used := [{ chat_id := 1, question_id := 1 }], sessionRows := [] }

/-- A second stored question for the selector witness. -/
def questionTwo : QuizQuestion := { id := 2, question := "R?", answer := "volga" }

/-- A store whose only question is already marked used for chat 1. -/
def exhaustedStore : Store :=
  { questions := [sampleQuestion], used := [{ chat_id := 1, question_id := 1 }],
    sessionRows := [] }

/-- C7 witness: a returned question is stored, unexcluded and unmarked; on a
store whose only question is marked used, `_send_question` finalizes without
touching the used marks. -/
theorem C7_witness :
    (questionTwo ∈ storeC7.questions
      ∧ ¬ (questionTwo.id) ∈ ([] : List Nat)
      ∧ ∀ m ∈ storeC7.used, m.chat_id = 1 → ¬ m.question_id = questionTwo.id)
    ∧ (_send_question [] exhaustedStore 1 2 freshSession 0 5 FinStep.ok).store.used
        = [{ chat_id := 1, question_id := 1 }] := by
  constructor
  · exact (C7_question_selector).1 storeC7 1 [] 0 questionTwo (by decide)
  · exact ((C7_question_selector).2.2.2 [] exhaustedStore
      1 2 freshSession 0 5 FinStep.ok (by decide)).2

/-! ## Claim C9: the correct-answer path -/

theorem find?_score_cons_pos (a : Int × Nat) (l : List (Int × Nat)) (u : Int)
    (h : (a.1 == u) = true) :
    List.find? (fun p => p.1 == u) (a :: l) = some a :=
  List.find?_cons_of_pos _ h

theorem find?_score_cons_neg (a : Int × Nat) (l : List (Int × Nat)) (u : Int)
    (h : ¬ (a.1 == u) = true) :
    List.find? (fun p => p.1 == u) (a :: l) = List.find? (fun p => p.1 == u) l :=
  List.find?_cons_of_neg _ h

theorem getScore_map_update (scores : List (Int × Nat)) (user : Int) (points : Nat)
    (h : scores.any (fun p => p.1 == user) = true) :
    getScore (scores.map (fun p => if p.1 == user then (p.1, p.2 + points) else p)) user
      = getScore scores user + points := by
  induction scores with
  | nil => simp at h
  | cons a tl ih =>
    simp only [List.map_cons]
    by_cases ha : (a.1 == user) = true
    · rw [if_pos ha]
      unfold getScore
      rw [find?_score_cons_pos (a.1, a.2 + points) _ user ha,
        find?_score_cons_pos a tl user ha]
    · rw [if_neg ha]
      have htl : tl.any (fun p => p.1 == user) = true := by
        rw [List.any_cons, Bool.or_eq_true] at h
        rcases h with h | h
        · exact absurd h ha
        · exact h
      unfold getScore
      rw [find?_score_cons_neg a _ user ha, find?_score_cons_neg a tl user ha]
      exact ih htl

theorem getScore_append_self (scores : List (Int × Nat)) (user : Int) (points : Nat)
    (h : scores.any (fun p => p.1 == user) = false) :
    getScore (scores ++ [(user, points)]) user = getScore scores user + points := by
  induction scores with
  | nil =>
    unfold getScore
    rw [List.nil_append, find?_score_cons_pos (user, points) [] user (by simp)]
    simp
  | cons a tl ih =>
    rw [List.any_cons, Bool.or_eq_false_iff] at h
    have ha : ¬ ((a.1 == user) = true) := by
      rw [h.1]
      simp
    rw [List.cons_append]
    unfold getScore
    rw [find?_score_cons_neg a _ user ha, find?_score_cons_neg a tl user ha]
    exact ih h.2

theorem getScore_map_update_other (scores : List (Int × Nat)) (user : Int) (points : Nat)
    (u : Int) (hne : u ≠ user) :
    getScore (scores.map (fun p => if p.1 == user then (p.1, p.2 + points) else p)) u
      = getScore scores u := by
  induction scores with
  | nil => rfl
  | cons a tl ih =>
    simp only [List.map_cons]
    by_cases ha : (a.1 == user) = true
    · have hau : ¬ ((a.1 == u) = true) := by
        have h1 : a.1 = user := by simpa using ha
        rw [h1]
        simp only [beq_iff_eq]
        exact Ne.symm hne
      rw [if_pos ha]
      unfold getScore
      rw [find?_score_cons_neg (a.1, a.2 + points) _ u hau, find?_score_cons_neg a tl u hau]
      exact ih
    · rw [if_neg ha]
      by_cases hau : (a.1 == u) = true
      · unfold getScore
        rw [find?_score_cons_pos a _ u hau, find?_score_cons_pos a tl u hau]
      · unfold getScore
        rw [find?_score_cons_neg a _ u hau, find?_score_cons_neg a tl u hau]
        exact ih

theorem getScore_append_other (scores : List (Int × Nat)) (user : Int) (points : Nat)
    (u : Int) (hne : u ≠ user) :
    getScore (scores ++ [(user, points)]) u = getScore scores u := by
  have hu : ¬ (((user, points).1 == u) = true) := by
    simp only [beq_iff_eq]
    exact Ne.symm hne
  induction scores with
  | nil =>
    unfold getScore
    rw [List.nil_append, find?_score_cons_neg (user, points) [] u hu]
  | cons a tl ih =>
    rw [List.cons_append]
    by_cases hau : (a.1 == u) = true
    · unfold getScore
      rw [find?_score_cons_pos a _ u hau, find?_score_cons_pos a tl u hau]
    · unfold getScore
      rw [find?_score_cons_neg a _ u hau, find?_score_cons_neg a tl u hau]
      exact ih

theorem getScore_addScore_self (scores : List (Int × Nat)) (user : Int) (points : Nat) :
    getScore (addScore scores user points) user = getScore scores user + points := by
  unfold addScore
  by_cases h : scores.any (fun p => p.1 == user) = true
  · rw [if_pos h]
    exact getScore_map_update scores user points h
  · rw [if_neg h]
    refine getScore_append_self scores user points ?_
    cases hb : scores.any (fun p => p.1 == user) with
    | false => rfl
    | true => exact absurd hb h

theorem getScore_addScore_other (scores : List (Int × Nat)) (user : Int) (points : Nat)
    (u : Int) (hne : u ≠ user) :
    getScore (addScore scores user points) u = getScore scores u := by
  unfold addScore
  by_cases h : scores.any (fun p => p.1 == user) = true
  · rw [if_pos h]
    exact getScore_map_update_other scores user points u hne
  · rw [if_neg h]
    exact getScore_append_other scores user points u hne

/-- The in-memory session object after the correct-answer mutations of
`handle_quiz_answer`: one point added, current question cleared. -/
def answered_session (quiz_session : QuizSession) (user_id : Int) : QuizSession :=
  { quiz_session.add_score user_id 1 with current_question_id := none }

/-- C9: on a correct answer for the outstanding question, the handler cancels
both timer slots before any other side effect, credits exactly one point to
the answerer (leaving all other scores unchanged), clears the current question
pointer, replies with the almost-exact note exactly when the decision is
close, and then finalizes when `questionsAsked` reached the target, otherwise
commits, sleeps the inter-question pause and raises the next question. -/
theorem C9_correct_answer_path (finishing : List (Int × Int)) (st : Store)
    (chat_id topic_id user_id : Int) (text : String) (now : Nat) (mode : FinStep)
    (quiz_session : QuizSession) (qid : Nat) (question : QuizQuestion)
    (hga : get_active_session st chat_id topic_id = some quiz_session)
    (hqid : quiz_session.current_question_id = some qid)
    (hfind : st.questions.find? (fun q => q.id == qid) = some question)
    (hcorrect : (local_quiz_answer_decision question.answer text).is_correct = true) :
    (handle_quiz_answer finishing st chat_id topic_id user_id text now mode).effects.take 2
        = cancel_all_timers chat_id topic_id
    ∧ (handle_quiz_answer finishing st chat_id topic_id user_id text now mode).session
        = some (answered_session quiz_session user_id)
    ∧ getScore (answered_session quiz_session user_id).scores user_id
        = getScore quiz_session.scores user_id + 1
    ∧ (∀ u, u ≠ user_id →
        getScore (answered_session quiz_session user_id).scores u
          = getScore quiz_session.scores u)
    ∧ (handle_quiz_answer finishing st chat_id topic_id user_id text now mode).effects.get? 2
        = some (Effect.reply ("✅ Верно"
            ++ (if (local_quiz_answer_decision question.answer text).is_close then
                " (почти точно!)" else "")
            ++ "! Правильный ответ: <b>" ++ question.answer ++ "</b>"))
    ∧ (QUIZ_TOTAL_QUESTIONS ≤ quiz_session.questions_asked →
        (handle_quiz_answer finishing st chat_id topic_id user_id text now mode).followUp
            = FollowUp.stop
        ∧ (handle_quiz_answer finishing st chat_id topic_id user_id text now mode).effects
            = cancel_all_timers chat_id topic_id
              ++ [Effect.reply ("✅ Верно"
                  ++ (if (local_quiz_answer_decision question.answer text).is_close then
                      " (почти точно!)" else "")
                  ++ "! Правильный ответ: <b>" ++ question.answer ++ "</b>")]
              ++ (safe_finish_quiz finishing st chat_id topic_id
                  (answered_session quiz_session user_id) now mode).effects
        ∧ (handle_quiz_answer finishing st chat_id topic_id user_id text now mode).store
            = (safe_finish_quiz finishing st chat_id topic_id
                (answered_session quiz_session user_id) now mode).store)
    ∧ (quiz_session.questions_asked < QUIZ_TOTAL_QUESTIONS →
        (handle_quiz_answer finishing st chat_id topic_id user_id text now mode).followUp
            = FollowUp.nextQuestion
        ∧ (handle_quiz_answer finishing st chat_id topic_id user_id text now mode).effects
            = cancel_all_timers chat_id topic_id
              ++ [Effect.reply ("✅ Верно"
                  ++ (if (local_quiz_answer_decision question.answer text).is_close then
                      " (почти точно!)" else "")
                  ++ "! Правильный ответ: <b>" ++ question.answer ++ "</b>")]
              ++ [Effect.sleepBreak]
        ∧ (handle_quiz_answer finishing st chat_id topic_id user_id text now mode).store
            = commitSession st (answered_session quiz_session user_id)) := by
  have heq : handle_quiz_answer finishing st chat_id topic_id user_id text now mode
      = (if QUIZ_TOTAL_QUESTIONS ≤ quiz_session.questions_asked then
          { finishing := (safe_finish_quiz finishing st chat_id topic_id
                (answered_session quiz_session user_id) now mode).finishing,
            store := (safe_finish_quiz finishing st chat_id topic_id
                (answered_session quiz_session user_id) now mode).store,
            effects := cancel_all_timers chat_id topic_id
              ++ [Effect.reply ("✅ Верно"
                  ++ (if (local_quiz_answer_decision question.answer text).is_close then
                      " (почти точно!)" else "")
                  ++ "! Правильный ответ: <b>" ++ question.answer ++ "</b>")]
              ++ (safe_finish_quiz finishing st chat_id topic_id
                  (answered_session quiz_session user_id) now mode).effects,
            session := some (answered_session quiz_session user_id),
            followUp := FollowUp.stop }
        else
          { finishing := finishing,
            store := commitSession st (answered_session quiz_session user_id),
            effects := cancel_all_timers chat_id topic_id
              ++ [Effect.reply ("✅ Верно"
                  ++ (if (local_quiz_answer_decision question.answer text).is_close then
                      " (почти точно!)" else "")
                  ++ "! Правильный ответ: <b>" ++ question.answer ++ "</b>")]
              ++ [Effect.sleepBreak],
            session := some (answered_session quiz_session user_id),
            followUp := FollowUp.nextQuestion }) := by
    unfold handle_quiz_answer
    rw [hga]
    dsimp only
    rw [hqid]
    dsimp only
    rw [hfind]
    dsimp only
    rw [if_pos hcorrect]
    rfl
  rw [heq]
  by_cases hdone : QUIZ_TOTAL_QUESTIONS ≤ quiz_session.questions_asked
  · rw [if_pos hdone]
    refine ⟨rfl, rfl, getScore_addScore_self quiz_session.scores user_id 1,
      fun u hu => getScore_addScore_other quiz_session.scores user_id 1 u hu, rfl,
      fun h => ⟨rfl, rfl, rfl⟩, fun h => absurd hdone (by omega)⟩
  · rw [if_neg hdone]
    refine ⟨rfl, rfl, getScore_addScore_self quiz_session.scores user_id 1,
      fun u hu => getScore_addScore_other quiz_session.scores user_id 1 u hu, rfl,
      fun h => absurd h hdone, fun h => ⟨rfl, rfl, rfl⟩⟩

/-- The active session used by the C9 witness: question 1 outstanding, ten
questions already asked (target reached). -/
def sessC9 : QuizSession :=
  { freshSession with current_question_id := some 1, questions_asked := 10 }

/-- The store used by the C9 witness. -/
def storeC9 : Store :=
  { questions := [sampleQuestion], used := [], sessionRows := [sessC9] }

/-- C9 witness: submitting the exact expected answer cancels the timers first,
adds one point to the submitter, and finalizes (target already reached). -/
theorem C9_witness :
    (handle_quiz_answer [] storeC9 1 2 42 ("nile") 9 FinStep.ok).effects.take 2
        = cancel_all_timers 1 2
    ∧ getScore (answered_session sessC9 42).scores 42 = getScore sessC9.scores 42 + 1
    ∧ (handle_quiz_answer [] storeC9 1 2 42 ("nile") 9 FinStep.ok).followUp
        = FollowUp.stop := by
  have h := C9_correct_answer_path [] storeC9 1 2 42 ("nile") 9 FinStep.ok sessC9 1
    sampleQuestion (by decide) (by decide) (by decide) (by decide)
  exact ⟨h.1, h.2.2.1, (h.2.2.2.2.2.1 (by decide)).1⟩

end QuizService
